import Mathlib

/-!
Verification of the DynamoDB attribute-backfill script
(`src/dynamo/src/dynamodb-client.ts`).

The script is embedded shallowly: items are association lists from attribute
names to dynamically-typed values, the external DynamoDB document client is a
pair of request handlers threading an abstract state `σ`, and the paging loop
of `processTable` is given explicit fuel (the real loop runs until the store
stops returning a continuation token).  Every run also records the trace of
scan calls it made, so that paging claims can be stated about the calls.
-/

namespace Dyn

/-- A dynamically-typed attribute value of a DynamoDB item. -/
inductive DVal where
  | str (s : String)
  | num (n : Int)
  | bool (b : Bool)
  | null
deriving DecidableEq

/-- A DynamoDB item: an open mapping from attribute names to values
(`DynamoDBItem` in the source). -/
abbrev Item : Type := List (String × DVal)

/-- Property read `item[name]`: the value of the attribute, if present. -/
def getAttr (item : Item) (attributeName : String) : Option DVal :=
  (item.find? (fun p => p.1 == attributeName)).map (fun p => p.2)

/-- The JavaScript `name in item` membership test. -/
def hasAttr (item : Item) (attributeName : String) : Bool :=
  item.any (fun p => p.1 == attributeName)

/-- A `ScanCommand` payload: `TableName`, `Limit`, `ExclusiveStartKey`.
The opaque continuation token is modelled as a `Nat`. -/
structure ScanRequest where
  tableName : String
  limit : Nat
  exclusiveStartKey : Option Nat
deriving DecidableEq

/-- The raw response of the document client to a scan: `Items` (possibly
absent) and `LastEvaluatedKey` (absent on the final page). -/
structure ScanRawResponse where
  items : Option (List Item)
  lastEvaluatedKey : Option Nat
deriving DecidableEq

/-- `ScanResult` of the source. -/
structure ScanResult where
  items : List Item
  lastEvaluatedKey : Option Nat
  hasMoreItems : Bool
deriving DecidableEq

/-- An `UpdateCommand` payload: table, key, and the single attribute set by
`SET #attr = :val`. -/
structure UpdateRequest where
  tableName : String
  key : Item
  attributeName : String
  attributeValue : String
deriving DecidableEq

/-- `UpdateResult` of the source. -/
structure UpdateResult where
  success : Bool
  item : Option Item
  error : Option String
deriving DecidableEq

/-- `ProcessingStats` of the source. -/
structure ProcessingStats where
  totalScanned : Nat
  itemsWithoutAttribute : Nat
  successfulUpdates : Nat
  failedUpdates : Nat
deriving DecidableEq

/-- The external document client (`docClient.send`): one handler per command
kind, threading an abstract store state `σ`.  An `Except.error` models a
rejected promise (a thrown transport error). -/
structure Collab (σ : Type) where
  scanSend : ScanRequest → σ → Except String ScanRawResponse × σ
  updSend : UpdateRequest → σ → Except String Item × σ

/-- Outcome of a `processTable` run: the returned stats, an uncaught
exception, or fuel exhaustion (a model artifact: the real loop just keeps
going). -/
inductive RunResult where
  | ok (stats : ProcessingStats)
  | thrown (e : String)
  | outOfFuel
deriving DecidableEq

/-- A run's outcome together with the final store state and the recorded
trace of scan calls (request paired with the `scanTableBatch` reply). -/
structure RunOutput (σ : Type) where
  result : RunResult
  finalState : σ
  scanTrace : List (ScanRequest × Except String ScanResult)

/-- Split a character list at every occurrence of `sep`; always returns at
least one group. -/
def splitOnCharList (sep : Char) : List Char → List (List Char)
  | [] => [[]]
  | c :: cs =>
    match splitOnCharList sep cs with
    | [] => [[]]
    | g :: gs => if c = sep then [] :: g :: gs else (c :: g) :: gs

/-- The JavaScript `s.split(sep)` for a single-character separator. -/
def jsSplit (s : String) (sep : Char) : List String :=
  (splitOnCharList sep s.toList).map (fun cs => String.mk cs)

/-- The JavaScript regular-expression test `/^\d{12}$/.test a`: exactly
twelve ASCII decimal digits. -/
def matchesTwelveDigits (a : String) : Bool :=
  a.length == 12 && a.toList.all Char.isDigit

/-- Decidable equality for the result of a fallible external call. -/
instance {α : Type} [DecidableEq α] : DecidableEq (Except String α) := fun a b =>
  match a, b with
  | Except.ok x, Except.ok y =>
      if h : x = y then isTrue (by rw [h]) else isFalse (by simp [h])
  | Except.error x, Except.error y =>
      if h : x = y then isTrue (by rw [h]) else isFalse (by simp [h])
  | Except.ok _, Except.error _ => isFalse (by simp)
  | Except.error _, Except.ok _ => isFalse (by simp)

/-- `getAccountIdFromArn` of the source.  The argument is `item['AgentArn']`,
which at runtime may be any value or absent, hence `Option DVal`; the
function first checks `!value || typeof value !== 'string'`. -/
def getAccountIdFromArn (value : Option DVal) : Except String String :=
  match value with
  | some (DVal.str s) =>
    if s = "" then
      Except.error "Invalid ARN: ARN must be a non-empty string"
    else if (jsSplit s ':').length < 6 then
      Except.error ("Invalid ARN format: " ++ s ++
        ". Expected format: arn:partition:service:region:account-id:resource")
    else if (jsSplit s ':').getD 4 "" = "" then
      Except.error ("No account ID found in ARN: " ++ s)
    else if !matchesTwelveDigits ((jsSplit s ':').getD 4 "") then
      Except.error ("Invalid account ID format: " ++ (jsSplit s ':').getD 4 "" ++
        ". Account ID must be 12 digits")
    else
      Except.ok ((jsSplit s ':').getD 4 "")
  | _ => Except.error "Invalid ARN: ARN must be a non-empty string"

/-- `scanTableBatch` of the source: send a `ScanCommand`; on success wrap the
response (`Items || []`, `LastEvaluatedKey`, `!!LastEvaluatedKey`); on error
rethrow. -/
def scanTableBatch (C : Collab σ) (tableName : String) (limit : Nat)
    (lastEvaluatedKey : Option Nat) (st : σ) : Except String ScanResult × σ :=
  match C.scanSend ⟨tableName, limit, lastEvaluatedKey⟩ st with
  | (Except.error e, st1) => (Except.error e, st1)
  | (Except.ok resp, st1) =>
      (Except.ok { items := resp.items.getD [],
                   lastEvaluatedKey := resp.lastEvaluatedKey,
                   hasMoreItems := resp.lastEvaluatedKey.isSome }, st1)

/-- `filterItemsFromTable` of the source:
`items.filter(item => !(attributeName in item))`. -/
def filterItemsFromTable (items : List Item) (attributeName : String) : List Item :=
  items.filter (fun item => !(hasAttr item attributeName))

/-- The key object built at the start of `updateItem`: copy each listed key
attribute from the item, skipping the ones whose value is `undefined`. -/
def buildKey (item : Item) (keyAttributes : List String) : Item :=
  keyAttributes.foldl (fun key keyAttr =>
    match getAttr item keyAttr with
    | some v => key ++ [(keyAttr, v)]
    | none => key) []

/-- `updateItem` of the source: build the key, send an `UpdateCommand`
(`SET #attr = :val`), and catch any transport error as a failed result. -/
def updateItem (C : Collab σ) (tableName : String) (item : Item)
    (attributeName attributeValue : String) (keyAttributes : List String)
    (st : σ) : UpdateResult × σ :=
  match C.updSend ⟨tableName, buildKey item keyAttributes, attributeName,
                   attributeValue⟩ st with
  | (Except.ok updated, st1) =>
      ({ success := true, item := some updated, error := none }, st1)
  | (Except.error e, st1) =>
      ({ success := false, item := none, error := some e }, st1)

/-- `batchUpdateItems` of the source.  Note that `getAccountIdFromArn` is
called outside any try/catch, so a derivation failure escapes the loop
(`Except.error`), discarding the counters accumulated so far. -/
def batchUpdateItems (C : Collab σ) (tableName : String) (items : List Item)
    (attributeName : String) (keyAttributes : List String) (st : σ) :
    Except String (Nat × Nat) × σ :=
  match items with
  | [] => (Except.ok (0, 0), st)
  | item :: rest =>
    match getAccountIdFromArn (getAttr item "AgentArn") with
    | Except.error e => (Except.error e, st)
    | Except.ok accountId =>
      match updateItem C tableName item attributeName accountId keyAttributes st with
      | (result, st1) =>
        match batchUpdateItems C tableName rest attributeName keyAttributes st1 with
        | (Except.error e, st2) => (Except.error e, st2)
        | (Except.ok (succ, fail), st2) =>
          if result.success then (Except.ok (succ + 1, fail), st2)
          else (Except.ok (succ, fail + 1), st2)

/-- The guarded update step of one page of `processTable`:
`if (itemsToUpdate.length > 0) { batchUpdateItems(...) }`. -/
def pageOutcome (C : Collab σ) (tableName : String) (itemsToUpdate : List Item)
    (newAttributeName : String) (keyAttributes : List String) (st : σ) :
    Except String (Nat × Nat) × σ :=
  if 0 < itemsToUpdate.length then
    batchUpdateItems C tableName itemsToUpdate newAttributeName keyAttributes st
  else (Except.ok (0, 0), st)

/-- The four `+=` statements of one `processTable` iteration. -/
def addStats (stats : ProcessingStats) (scanned missing succ fail : Nat) :
    ProcessingStats :=
  { totalScanned := stats.totalScanned + scanned,
    itemsWithoutAttribute := stats.itemsWithoutAttribute + missing,
    successfulUpdates := stats.successfulUpdates + succ,
    failedUpdates := stats.failedUpdates + fail }

/-- The `do { ... } while (lastEvaluatedKey)` loop of `processTable`,
with explicit fuel.  Each iteration scans one page (limit 50 on the first
iteration, 100 afterwards), filters, updates, accumulates stats and advances
the token. -/
def processTableLoop (C : Collab σ)
    (tableName missingAttributeName newAttributeName : String)
    (keyAttributes : List String) :
    Nat → Option Nat → Bool → ProcessingStats → σ → RunOutput σ
  | 0, _, _, _, st => ⟨RunResult.outOfFuel, st, []⟩
  | fuel + 1, lek, isFirstBatch, stats, st =>
    match scanTableBatch C tableName (if isFirstBatch then 50 else 100) lek st with
    | (Except.error e, st1) =>
        ⟨RunResult.thrown e, st1,
         [(⟨tableName, (if isFirstBatch then 50 else 100), lek⟩, Except.error e)]⟩
    | (Except.ok scanResult, st1) =>
      match pageOutcome C tableName
              (filterItemsFromTable scanResult.items missingAttributeName)
              newAttributeName keyAttributes st1 with
      | (Except.error e, st2) =>
          ⟨RunResult.thrown e, st2,
           [(⟨tableName, (if isFirstBatch then 50 else 100), lek⟩,
             Except.ok scanResult)]⟩
      | (Except.ok (succ, fail), st2) =>
        match scanResult.lastEvaluatedKey with
        | none =>
            ⟨RunResult.ok (addStats stats scanResult.items.length
                (filterItemsFromTable scanResult.items missingAttributeName).length
                succ fail), st2,
             [(⟨tableName, (if isFirstBatch then 50 else 100), lek⟩,
               Except.ok scanResult)]⟩
        | some k =>
          let out := processTableLoop C tableName missingAttributeName
            newAttributeName keyAttributes fuel (some k) false
            (addStats stats scanResult.items.length
              (filterItemsFromTable scanResult.items missingAttributeName).length
              succ fail) st2
          ⟨out.result, out.finalState,
           (⟨tableName, (if isFirstBatch then 50 else 100), lek⟩,
            Except.ok scanResult) :: out.scanTrace⟩

/-- `processTable` of the source: run the paging loop from no token, first
batch, zero stats.  `keyAttributes` defaults to `["id"]` as in the source. -/
def processTable (C : Collab σ) (fuel : Nat) (st : σ)
    (tableName missingAttributeName newAttributeName : String)
    (keyAttributes : List String := ["id"]) : RunOutput σ :=
  processTableLoop C tableName missingAttributeName newAttributeName
    keyAttributes fuel none true ⟨0, 0, 0, 0⟩ st

/-- Overwrite attribute `name` with `v` if present (last write wins), append
it otherwise: the effect of an unconditional `SET name = v` on one item. -/
def setAttr (row : Item) (name : String) (v : DVal) : Item :=
  if hasAttr row name then
    row.map (fun p => if p.1 = name then (p.1, v) else p)
  else row ++ [(name, v)]

/-- A row matches an update key when every key attribute is present on the
row with the given value. -/
def keyMatches (key : Item) (row : Item) : Bool :=
  key.all (fun p => getAttr row p.1 == some p.2)

/-- Modelled from the spec: the external table store (spec section 6), which
is not part of this repository.  Its state is the ordered list of table
rows. -/
structure TableStore where
  rows : List Item
deriving DecidableEq

/-- Modelled from the spec: the store's scan — return up to `limit` rows
starting at the continuation token (an index into the row list), and a token
exactly when rows remain beyond the returned page. -/
def storeScan (req : ScanRequest) (s : TableStore) :
    Except String ScanRawResponse × TableStore :=
  let start := req.exclusiveStartKey.getD 0
  let page := (s.rows.drop start).take req.limit
  (Except.ok { items := some page,
               lastEvaluatedKey :=
                 if start + page.length < s.rows.length then
                   some (start + page.length)
                 else none }, s)

/-- Modelled from the spec: the store's update — an unconditional
single-attribute set (`set if absent or present`, last write wins) applied to
the rows matching the given key; the store itself never fails. -/
def storeUpdate (req : UpdateRequest) (s : TableStore) :
    Except String Item × TableStore :=
  (Except.ok (setAttr req.key req.attributeName (DVal.str req.attributeValue)),
   ⟨s.rows.map (fun row =>
      if keyMatches req.key row then
        setAttr row req.attributeName (DVal.str req.attributeValue)
      else row)⟩)

/-- Modelled from the spec: the document client backed by the table store. -/
def storeCollab : Collab TableStore :=
  ⟨storeScan, storeUpdate⟩

/-- A collaborator whose updates always succeed and whose scans return one
empty final page (used to instantiate generic theorems). -/
def unitCollab : Collab Unit :=
  ⟨fun _ _ => (Except.ok ⟨some [], none⟩, ()),
   fun _ _ => (Except.ok [], ())⟩

/-- A collaborator whose every update is rejected by the store. -/
def failUpdateCollab : Collab Unit :=
  ⟨fun _ _ => (Except.ok ⟨some [], none⟩, ()),
   fun _ _ => (Except.error "transport failure", ())⟩

/-- A collaborator whose every scan is rejected by the store. -/
def failScanCollab : Collab Unit :=
  ⟨fun _ _ => (Except.error "scan transport failure", ()),
   fun _ _ => (Except.ok [], ())⟩

/-- A collaborator returning `n + 1` pages of zero items each: the first `n`
replies carry a continuation token (counting down from `n`), the last one
does not. -/
def emptyPagesCollab (n : Nat) : Collab Unit :=
  ⟨fun req _ =>
    (Except.ok ⟨some [],
       match req.exclusiveStartKey with
       | none => if 0 < n then some n else none
       | some k => if 1 < k then some (k - 1) else none⟩, ()),
   fun _ _ => (Except.ok [], ())⟩

/-- The consecutive-call discipline of a recorded scan trace: each call after
the first requests limit 100 and passes exactly the (present) token returned
by the immediately preceding call; no call follows a failed one. -/
def scanChain : List (ScanRequest × Except String ScanResult) → Bool
  | (_, Except.ok r1) :: (req2, rep2) :: rest =>
      req2.limit == 100 && r1.lastEvaluatedKey.isSome &&
      req2.exclusiveStartKey == r1.lastEvaluatedKey &&
      scanChain ((req2, rep2) :: rest)
  | (_, Except.error _) :: _ :: _ => false
  | _ => true

/-- Total number of items returned by the store across the recorded scan
replies of a trace. -/
def traceScanned : List (ScanRequest × Except String ScanResult) → Nat
  | [] => 0
  | (_, Except.ok r) :: rest => r.items.length + traceScanned rest
  | (_, Except.error _) :: rest => traceScanned rest

/-- A demonstration table: one row with a key and a well-formed ARN but
without the `AccountId` attribute. -/
def demoRows : List Item :=
  [[("id", DVal.str "a"),
    ("AgentArn", DVal.str "arn:aws:genesis:us-west-2:886436930021:agent/x")]]

/-- Row `r2` is obtainable from `r` by setting attribute `name` zero or more
times: all other attributes are unchanged, and presence of `name` is
preserved. -/
def rowEvolves (name : String) (r r2 : Item) : Prop :=
  (∀ k, ¬k = name → getAttr r2 k = getAttr r k) ∧
  (hasAttr r name = true → hasAttr r2 name = true)

/-- Store `s2` is obtainable from `s` by per-row `rowEvolves` steps on
attribute `name` (same row count, rows evolve in place). -/
def storeEvolves (name : String) (s s2 : TableStore) : Prop :=
  s2.rows.length = s.rows.length ∧
  ∀ (p : Nat) (h : p < s.rows.length) (h2 : p < s2.rows.length),
    rowEvolves name (s.rows.get ⟨p, h⟩) (s2.rows.get ⟨p, h2⟩)

/-! ## Basic lemmas about items and the filter -/

theorem hasAttr_true_iff (item : Item) (name : String) :
    hasAttr item name = true ↔ ∃ v, (name, v) ∈ item := by
  unfold hasAttr
  rw [List.any_eq_true]
  constructor
  · rintro ⟨p, hp, he⟩
    rw [beq_iff_eq] at he
    exact ⟨p.2, by rwa [← he, Prod.mk.eta]⟩
  · rintro ⟨v, hv⟩
    exact ⟨(name, v), hv, by simp⟩

theorem getAttr_eq_none_of_not_hasAttr (item : Item) (name : String)
    (h : hasAttr item name = false) : getAttr item name = none := by
  unfold getAttr
  have hf : List.find? (fun p => p.1 == name) item = none := by
    rw [List.find?_eq_none]
    intro p hp
    unfold hasAttr at h
    rw [List.any_eq_false] at h
    exact h p hp
  rw [hf]
  rfl

theorem hasAttr_eq_isSome_getAttr (item : Item) (name : String) :
    hasAttr item name = (getAttr item name).isSome := by
  induction item with
  | nil => rfl
  | cons p rest ih =>
    unfold hasAttr getAttr at *
    cases hp : (p.1 == name) <;> simp [List.any_cons, List.find?, hp, ih]

theorem find?_eq_none_of_not_hasAttr (item : Item) (name : String)
    (h : hasAttr item name = false) :
    List.find? (fun p => p.1 == name) item = none := by
  rw [List.find?_eq_none]
  intro p hp
  unfold hasAttr at h
  rw [List.any_eq_false] at h
  exact h p hp

theorem getAttr_map_set (row : Item) (name k : String) (v : DVal)
    (hk : ¬k = name) :
    getAttr (row.map (fun p => if p.1 = name then (p.1, v) else p)) k
      = getAttr row k := by
  induction row with
  | nil => rfl
  | cons p rest ih =>
    unfold getAttr at ih ⊢
    by_cases hpn : p.1 = name
    · have hp2 : (p.1 == k) = false := by
        rw [beq_eq_false_iff_ne, hpn]
        exact fun hc => hk hc.symm
      simp only [List.map_cons, if_pos hpn, List.find?]
      rw [show (((p.1, v)).1 == k) = false from hp2]
      exact ih
    · simp only [List.map_cons, if_neg hpn, List.find?]
      cases hp2 : (p.1 == k) with
      | true => rfl
      | false => exact ih

theorem getAttr_map_set_self (row : Item) (name : String) (v : DVal)
    (hhas : hasAttr row name = true) :
    getAttr (row.map (fun p => if p.1 = name then (p.1, v) else p)) name
      = some v := by
  induction row with
  | nil => simp [hasAttr] at hhas
  | cons p rest ih =>
    by_cases hp : p.1 = name
    · simp [getAttr, List.find?, if_pos hp, hp]
    · have hp2 : (p.1 == name) = false := by simp [hp]
      have hrest : hasAttr rest name = true := by
        unfold hasAttr at hhas ⊢
        simpa [List.any_cons, hp2] using hhas
      unfold getAttr at ih ⊢
      simp only [List.map_cons, if_neg hp, List.find?, hp2]
      exact ih hrest

theorem getAttr_setAttr_self (row : Item) (name : String) (v : DVal) :
    getAttr (setAttr row name v) name = some v := by
  unfold setAttr
  by_cases hhas : hasAttr row name = true
  · rw [if_pos hhas]
    exact getAttr_map_set_self row name v hhas
  · rw [if_neg hhas]
    unfold getAttr
    rw [List.find?_append,
      find?_eq_none_of_not_hasAttr row name (by simpa using hhas)]
    simp [List.find?]

theorem getAttr_setAttr_ne (row : Item) (name : String) (v : DVal) (k : String)
    (hk : ¬k = name) : getAttr (setAttr row name v) k = getAttr row k := by
  unfold setAttr
  by_cases hhas : hasAttr row name = true
  · rw [if_pos hhas]
    exact getAttr_map_set row name k v hk
  · rw [if_neg hhas]
    unfold getAttr
    rw [List.find?_append]
    have hlast : List.find? (fun p => p.1 == k) [(name, v)] = none := by
      simp only [List.find?]
      rw [show ((name, v).1 == k) = false by
        rw [beq_eq_false_iff_ne]
        exact fun hc => hk hc.symm]
    rw [hlast]
    cases List.find? (fun p => p.1 == k) row <;> rfl

theorem hasAttr_setAttr_self (row : Item) (name : String) (v : DVal) :
    hasAttr (setAttr row name v) name = true := by
  rw [hasAttr_eq_isSome_getAttr, getAttr_setAttr_self]
  rfl

theorem hasAttr_setAttr_mono (row : Item) (name k : String) (v : DVal)
    (h : hasAttr row k = true) : hasAttr (setAttr row name v) k = true := by
  by_cases hkn : k = name
  · subst hkn
    exact hasAttr_setAttr_self row k v
  · rw [hasAttr_eq_isSome_getAttr, getAttr_setAttr_ne row name v k hkn,
      ← hasAttr_eq_isSome_getAttr]
    exact h

theorem rowEvolves_refl (name : String) (r : Item) : rowEvolves name r r :=
  ⟨fun _ _ => rfl, fun h => h⟩

theorem rowEvolves_trans (name : String) (r1 r2 r3 : Item)
    (h12 : rowEvolves name r1 r2) (h23 : rowEvolves name r2 r3) :
    rowEvolves name r1 r3 :=
  ⟨fun k hk => (h23.1 k hk).trans (h12.1 k hk), fun h => h23.2 (h12.2 h)⟩

theorem rowEvolves_setAttr (name : String) (r : Item) (v : DVal) :
    rowEvolves name r (setAttr r name v) :=
  ⟨fun k hk => getAttr_setAttr_ne r name v k hk,
   fun _ => hasAttr_setAttr_self r name v⟩

theorem rowEvolves_hasAttr (name : String) (r r2 : Item)
    (h : rowEvolves name r r2) (hh : hasAttr r name = true) :
    hasAttr r2 name = true := h.2 hh

theorem buildKey_mem (item : Item) (keyAttributes : List String) :
    ∀ p ∈ buildKey item keyAttributes, getAttr item p.1 = some p.2 := by
  unfold buildKey
  suffices haux : ∀ (ka : List String) (acc : Item) (p : String × DVal),
      p ∈ List.foldl (fun key keyAttr =>
        match getAttr item keyAttr with
        | some v => key ++ [(keyAttr, v)]
        | none => key) acc ka →
      p ∈ acc ∨ getAttr item p.1 = some p.2 by
    intro p hp
    rcases haux keyAttributes [] p hp with hin | hgood
    · simp at hin
    · exact hgood
  intro ka
  induction ka with
  | nil =>
    intro acc p hp
    exact Or.inl hp
  | cons a ka ih =>
    intro acc p hp
    simp only [List.foldl_cons] at hp
    rcases hcase : getAttr item a with _ | v
    · rw [hcase] at hp
      exact ih acc p hp
    · rw [hcase] at hp
      rcases ih _ p hp with hin | hgood
      · rcases List.mem_append.1 hin with hacc | hnew
        · exact Or.inl hacc
        · simp only [List.mem_singleton] at hnew
          subst hnew
          exact Or.inr hcase
      · exact Or.inr hgood

theorem keyMatches_of_evolved (item : Item) (keyAttributes : List String)
    (name : String) (row : Item) (hnot : hasAttr item name = false)
    (hev : rowEvolves name item row) :
    keyMatches (buildKey item keyAttributes) row = true := by
  unfold keyMatches
  rw [List.all_eq_true]
  intro p hp
  have hget := buildKey_mem item keyAttributes p hp
  have hne : ¬p.1 = name := by
    intro hc
    rw [hc] at hget
    rw [getAttr_eq_none_of_not_hasAttr item name hnot] at hget
    exact Option.noConfusion hget
  rw [hev.1 p.1 hne, hget]
  simp

/-! ## Effect of updates on the modelled store -/

theorem storeCollab_updateItem (tableName : String) (item : Item)
    (attributeName attributeValue : String) (keyAttributes : List String)
    (st : TableStore) :
    updateItem storeCollab tableName item attributeName attributeValue
      keyAttributes st
    = (⟨true, some (setAttr (buildKey item keyAttributes) attributeName
          (DVal.str attributeValue)), none⟩,
       ⟨st.rows.map (fun row =>
          if keyMatches (buildKey item keyAttributes) row then
            setAttr row attributeName (DVal.str attributeValue)
          else row)⟩) := rfl

theorem storeEvolves_refl (name : String) (s : TableStore) :
    storeEvolves name s s := by
  refine ⟨rfl, ?_⟩
  intro p h h2
  exact rowEvolves_refl name (s.rows.get ⟨p, h⟩)

theorem storeEvolves_trans (name : String) (s1 s2 s3 : TableStore)
    (h12 : storeEvolves name s1 s2) (h23 : storeEvolves name s2 s3) :
    storeEvolves name s1 s3 := by
  obtain ⟨hl12, hp12⟩ := h12
  obtain ⟨hl23, hp23⟩ := h23
  refine ⟨by omega, ?_⟩
  intro p h1 h3
  have h2 : p < s2.rows.length := by omega
  exact rowEvolves_trans name _ _ _ (hp12 p h1 h2) (hp23 p h2 h3)

theorem mapStore_get (f : Item → Item) (s : TableStore) (p : Nat)
    (h : p < s.rows.length)
    (h2 : p < (⟨s.rows.map f⟩ : TableStore).rows.length) :
    (⟨s.rows.map f⟩ : TableStore).rows.get ⟨p, h2⟩
      = f (s.rows.get ⟨p, h⟩) := by
  apply List.get_map

theorem mapStore_evolves (name av : String) (key : Item) (s : TableStore) :
    storeEvolves name s ⟨s.rows.map (fun row =>
      if keyMatches key row then setAttr row name (DVal.str av) else row)⟩ := by
  refine ⟨by simp, ?_⟩
  intro p h h2
  rw [mapStore_get _ s p h h2]
  by_cases hm : keyMatches key (s.rows.get ⟨p, h⟩) = true
  · rw [if_pos hm]
    exact rowEvolves_setAttr name _ (DVal.str av)
  · rw [if_neg hm]
    exact rowEvolves_refl name _

theorem mapStore_sets (name av : String) (key : Item) (s : TableStore)
    (p : Nat) (h : p < s.rows.length)
    (h2 : p < (⟨s.rows.map (fun row =>
      if keyMatches key row then setAttr row name (DVal.str av) else
      row)⟩ : TableStore).rows.length)
    (hm : keyMatches key (s.rows.get ⟨p, h⟩) = true) :
    hasAttr ((⟨s.rows.map (fun row =>
      if keyMatches key row then setAttr row name (DVal.str av) else
      row)⟩ : TableStore).rows.get ⟨p, h2⟩) name = true := by
  rw [mapStore_get _ s p h h2, if_pos hm]
  exact hasAttr_setAttr_self _ name (DVal.str av)

theorem batchUpdateItems_store_evolves (tableName attributeName : String)
    (keyAttributes : List String) :
    ∀ (items : List Item) (st : TableStore) (res : Except String (Nat × Nat))
      (st1 : TableStore),
    batchUpdateItems storeCollab tableName items attributeName keyAttributes st
      = (res, st1) → storeEvolves attributeName st st1 := by
  intro items
  induction items with
  | nil =>
    intro st res st1 h
    simp only [batchUpdateItems, Prod.mk.injEq] at h
    obtain ⟨-, hst⟩ := h
    subst hst
    exact storeEvolves_refl attributeName st
  | cons item0 rest ih =>
    intro st res st1 h
    simp only [batchUpdateItems] at h
    cases hd : getAccountIdFromArn (getAttr item0 "AgentArn") with
    | error e =>
      simp only [hd, Prod.mk.injEq] at h
      obtain ⟨-, hst⟩ := h
      subst hst
      exact storeEvolves_refl attributeName st
    | ok acct =>
      simp only [hd, storeCollab_updateItem] at h
      rcases hrec : batchUpdateItems storeCollab tableName rest attributeName
          keyAttributes ⟨st.rows.map (fun row =>
            if keyMatches (buildKey item0 keyAttributes) row then
              setAttr row attributeName (DVal.str acct)
            else row)⟩ with ⟨res2, st2⟩
      rw [hrec] at h
      have hev1 := mapStore_evolves attributeName acct
        (buildKey item0 keyAttributes) st
      have hev2 := ih _ _ _ hrec
      cases res2 with
      | error e =>
        simp only [Prod.mk.injEq] at h
        obtain ⟨-, hst⟩ := h
        subst hst
        exact storeEvolves_trans attributeName _ _ _ hev1 hev2
      | ok sf =>
        rcases sf with ⟨s, f⟩
        simp at h
        obtain ⟨-, hst⟩ := h
        subst hst
        exact storeEvolves_trans attributeName _ _ _ hev1 hev2

theorem batchUpdateItems_sets (tableName attributeName : String)
    (keyAttributes : List String) :
    ∀ (items : List Item) (st : TableStore) (sf : Nat × Nat)
      (st1 : TableStore),
    batchUpdateItems storeCollab tableName items attributeName keyAttributes st
      = (Except.ok sf, st1) →
    ∀ item ∈ items, hasAttr item attributeName = false →
    ∀ (p : Nat) (h : p < st.rows.length) (h1 : p < st1.rows.length),
    rowEvolves attributeName item (st.rows.get ⟨p, h⟩) →
    hasAttr (st1.rows.get ⟨p, h1⟩) attributeName = true := by
  intro items
  induction items with
  | nil =>
    intro st sf st1 h item hmem
    exact absurd hmem (List.not_mem_nil item)
  | cons item0 rest ih =>
    intro st sf st1 h item hmem hnot p hp hp1 hev
    simp only [batchUpdateItems] at h
    cases hd : getAccountIdFromArn (getAttr item0 "AgentArn") with
    | error e =>
      simp only [hd] at h
      exact absurd h (by simp)
    | ok acct =>
      simp only [hd, storeCollab_updateItem] at h
      rcases hrec : batchUpdateItems storeCollab tableName rest attributeName
          keyAttributes ⟨st.rows.map (fun row =>
            if keyMatches (buildKey item0 keyAttributes) row then
              setAttr row attributeName (DVal.str acct)
            else row)⟩ with ⟨res2, st2⟩
      rw [hrec] at h
      have hevA := mapStore_evolves attributeName acct
        (buildKey item0 keyAttributes) st
      have hev2 := batchUpdateItems_store_evolves tableName attributeName
        keyAttributes rest _ _ _ hrec
      cases res2 with
      | error e =>
        simp only [Prod.mk.injEq] at h
        exact absurd h.1 (by simp)
      | ok sf2 =>
        rcases sf2 with ⟨s, f⟩
        simp at h
        obtain ⟨-, hst⟩ := h
        subst hst
        have hpA : p < (⟨st.rows.map (fun row =>
            if keyMatches (buildKey item0 keyAttributes) row then
              setAttr row attributeName (DVal.str acct)
            else row)⟩ : TableStore).rows.length := by
          simpa using hp
        have hp2 : p < st2.rows.length := by
          have := hev2.1
          omega
        rcases List.mem_cons.1 hmem with h0 | hrest
        · subst h0
          have hmatch := keyMatches_of_evolved item keyAttributes
            attributeName _ hnot hev
          have hsetA := mapStore_sets attributeName acct
            (buildKey item keyAttributes) st p hp hpA hmatch
          exact rowEvolves_hasAttr attributeName _ _
            (hev2.2 p hpA hp2) hsetA
        · have hevA2 : rowEvolves attributeName item
              ((⟨st.rows.map (fun row =>
                if keyMatches (buildKey item0 keyAttributes) row then
                  setAttr row attributeName (DVal.str acct)
                else row)⟩ : TableStore).rows.get ⟨p, hpA⟩) :=
            rowEvolves_trans attributeName _ _ _ hev (hevA.2 p hp hpA)
          exact ih _ _ _ hrec item hrest hnot p hpA hp2 hevA2

theorem storeCollab_scan (tableName : String) (limit : Nat)
    (lek : Option Nat) (st : TableStore) :
    scanTableBatch storeCollab tableName limit lek st
    = (Except.ok ⟨(st.rows.drop (lek.getD 0)).take limit,
        (if lek.getD 0 + ((st.rows.drop (lek.getD 0)).take limit).length
            < st.rows.length
         then some (lek.getD 0 + ((st.rows.drop (lek.getD 0)).take limit).length)
         else none),
        (if lek.getD 0 + ((st.rows.drop (lek.getD 0)).take limit).length
            < st.rows.length
         then some (lek.getD 0 + ((st.rows.drop (lek.getD 0)).take limit).length)
         else none).isSome⟩, st) := rfl

theorem take_drop_get (l : List Item) (start limit q : Nat)
    (hq1 : start ≤ q)
    (hh : q - start < ((l.drop start).take limit).length)
    (hq3 : q < l.length) :
    ((l.drop start).take limit).get ⟨q - start, hh⟩ = l.get ⟨q, hq3⟩ := by
  rw [List.get_eq_getElem, List.get_eq_getElem, List.getElem_take,
    List.getElem_drop]
  congr 1
  show start + (q - start) = q
  omega

theorem processTableLoop_store_post (tableName attributeName : String)
    (keyAttributes : List String) :
    ∀ (fuel : Nat) (lek : Option Nat) (first : Bool) (stats : ProcessingStats)
      (st : TableStore) (stats1 : ProcessingStats) (fs : TableStore)
      (trace : List (ScanRequest × Except String ScanResult)),
    processTableLoop storeCollab tableName attributeName attributeName
      keyAttributes fuel lek first stats st = ⟨RunResult.ok stats1, fs, trace⟩ →
    (∀ (p : Nat) (h : p < st.rows.length), p < lek.getD 0 →
      hasAttr (st.rows.get ⟨p, h⟩) attributeName = true) →
    ∀ row ∈ fs.rows, hasAttr row attributeName = true := by
  intro fuel
  induction fuel with
  | zero =>
    intro lek first stats st stats1 fs trace h hinv
    simp only [processTableLoop] at h
    exact absurd h (by simp)
  | succ fuel ih =>
    intro lek first stats st stats1 fs trace h hinv
    simp only [processTableLoop, storeCollab_scan] at h
    rcases hpage : pageOutcome storeCollab tableName
        (filterItemsFromTable
          ((st.rows.drop (lek.getD 0)).take (if first then 50 else 100))
          attributeName)
        attributeName keyAttributes st with ⟨rep2, st2⟩
    simp only [hpage] at h
    cases rep2 with
    | error e => exact absurd h (by simp)
    | ok sf2 =>
      rcases sf2 with ⟨s, f⟩
      have hcases : batchUpdateItems storeCollab tableName
          (filterItemsFromTable
            ((st.rows.drop (lek.getD 0)).take (if first then 50 else 100))
            attributeName)
          attributeName keyAttributes st = (Except.ok (s, f), st2)
        ∨ (filterItemsFromTable
            ((st.rows.drop (lek.getD 0)).take (if first then 50 else 100))
            attributeName = [] ∧ st2 = st) := by
        by_cases hb : 0 < (filterItemsFromTable
            ((st.rows.drop (lek.getD 0)).take (if first then 50 else 100))
            attributeName).length
        · left
          rw [pageOutcome, if_pos hb] at hpage
          exact hpage
        · right
          rw [pageOutcome, if_neg hb] at hpage
          simp only [Prod.mk.injEq] at hpage
          exact ⟨List.length_eq_zero.1 (by omega), hpage.2.symm⟩
      have hevol : storeEvolves attributeName st st2 := by
        rcases hcases with hbatch | ⟨-, hst⟩
        · exact batchUpdateItems_store_evolves tableName attributeName
            keyAttributes _ _ _ _ hbatch
        · subst hst
          exact storeEvolves_refl attributeName st2
      have hall : ∀ (q : Nat) (hq2 : q < st2.rows.length),
          q < lek.getD 0
            + ((st.rows.drop (lek.getD 0)).take
                (if first then 50 else 100)).length →
          hasAttr (st2.rows.get ⟨q, hq2⟩) attributeName = true := by
        intro q hq2 hqlt
        have hq : q < st.rows.length := by
          have := hevol.1
          omega
        by_cases hqs : q < lek.getD 0
        · exact rowEvolves_hasAttr attributeName _ _
            (hevol.2 q hq hq2) (hinv q hq hqs)
        · by_cases hrow : hasAttr (st.rows.get ⟨q, hq⟩) attributeName = true
          · exact rowEvolves_hasAttr attributeName _ _ (hevol.2 q hq hq2) hrow
          · have hrowf : hasAttr (st.rows.get ⟨q, hq⟩) attributeName
                = false := by simpa using hrow
            have hin : q - lek.getD 0
                < ((st.rows.drop (lek.getD 0)).take
                    (if first then 50 else 100)).length := by omega
            have hgetpage := take_drop_get st.rows (lek.getD 0)
              (if first then 50 else 100) q (by omega) hin hq
            have hmem : st.rows.get ⟨q, hq⟩ ∈ filterItemsFromTable
                ((st.rows.drop (lek.getD 0)).take (if first then 50 else 100))
                attributeName := by
              rw [filterItemsFromTable, List.mem_filter]
              refine ⟨?_, by simpa using hrowf⟩
              rw [← hgetpage]
              exact List.get_mem _ _ _
            rcases hcases with hbatch | ⟨hnil, -⟩
            · exact batchUpdateItems_sets tableName attributeName keyAttributes
                _ _ _ _ hbatch _ hmem hrowf q hq hq2
                (rowEvolves_refl attributeName _)
            · rw [hnil] at hmem
              exact absurd hmem (List.not_mem_nil _)
      by_cases htok : lek.getD 0
          + ((st.rows.drop (lek.getD 0)).take
              (if first then 50 else 100)).length < st.rows.length
      · simp only [if_pos htok] at h
        rcases hr : processTableLoop storeCollab tableName attributeName
            attributeName keyAttributes fuel
            (some (lek.getD 0
              + ((st.rows.drop (lek.getD 0)).take
                  (if first then 50 else 100)).length))
            false
            (addStats stats
              ((st.rows.drop (lek.getD 0)).take
                (if first then 50 else 100)).length
              (filterItemsFromTable
                ((st.rows.drop (lek.getD 0)).take (if first then 50 else 100))
                attributeName).length s f)
            st2 with ⟨res0, fs0, tr0⟩
        rw [hr] at h
        simp only [RunOutput.mk.injEq] at h
        obtain ⟨hres, hfs, -⟩ := h
        subst hres
        subst hfs
        exact ih _ false _ st2 stats1 fs0 tr0 hr (fun p hp hplt => hall p hp
          (by simpa using hplt))
      · simp only [if_neg htok] at h
        simp only [RunOutput.mk.injEq] at h
        obtain ⟨-, hfs, -⟩ := h
        subst hfs
        intro row hrow
        obtain ⟨⟨q, hq⟩, hget⟩ := List.mem_iff_get.1 hrow
        rw [← hget]
        have hlen := hevol.1
        exact hall q hq (by omega)

theorem processTableLoop_clean (tableName attributeName : String)
    (keyAttributes : List String) :
    ∀ (fuel : Nat) (lek : Option Nat) (first : Bool) (stats : ProcessingStats)
      (st : TableStore),
    (∀ row ∈ st.rows, hasAttr row attributeName = true) →
    st.rows.length - lek.getD 0 < fuel →
    ∃ stats1 : ProcessingStats,
      (processTableLoop storeCollab tableName attributeName attributeName
        keyAttributes fuel lek first stats st).result = RunResult.ok stats1
      ∧ stats1.itemsWithoutAttribute = stats.itemsWithoutAttribute
      ∧ stats1.successfulUpdates = stats.successfulUpdates
      ∧ stats1.failedUpdates = stats.failedUpdates := by
  intro fuel
  induction fuel with
  | zero => intro lek first stats st hall hfuel; omega
  | succ fuel ih =>
    intro lek first stats st hall hfuel
    have hfilter : filterItemsFromTable
        ((st.rows.drop (lek.getD 0)).take (if first then 50 else 100))
        attributeName = [] := by
      rw [filterItemsFromTable, List.filter_eq_nil]
      intro item hitem
      have hrows : item ∈ st.rows :=
        List.mem_of_mem_drop (List.mem_of_mem_take hitem)
      simp [hall item hrows]
    have hpage : pageOutcome storeCollab tableName
        (filterItemsFromTable
          ((st.rows.drop (lek.getD 0)).take (if first then 50 else 100))
          attributeName)
        attributeName keyAttributes st = (Except.ok (0, 0), st) := by
      rw [hfilter]
      rfl
    by_cases htok : lek.getD 0
        + ((st.rows.drop (lek.getD 0)).take
            (if first then 50 else 100)).length < st.rows.length
    · have hlim : 0 < (if first then 50 else 100) := by
        cases first <;> simp
      have hpl_eq : ((st.rows.drop (lek.getD 0)).take
          (if first then 50 else 100)).length
          = min (if first then 50 else 100) (st.rows.length - lek.getD 0) := by
        rw [List.length_take, List.length_drop]
      obtain ⟨stats1, hres, hm, hs, hf⟩ := ih
        (some (lek.getD 0 + ((st.rows.drop (lek.getD 0)).take
          (if first then 50 else 100)).length))
        false
        (addStats stats ((st.rows.drop (lek.getD 0)).take
          (if first then 50 else 100)).length
          (filterItemsFromTable ((st.rows.drop (lek.getD 0)).take
            (if first then 50 else 100)) attributeName).length 0 0)
        st hall (by simp only [Option.getD_some]; omega)
      refine ⟨stats1, ?_, ?_, ?_, ?_⟩
      · simp only [processTableLoop, storeCollab_scan, hpage, if_pos htok]
        exact hres
      · rw [hm]
        simp [addStats, hfilter]
      · rw [hs]
        simp [addStats]
      · rw [hf]
        simp [addStats]
    · refine ⟨addStats stats ((st.rows.drop (lek.getD 0)).take
          (if first then 50 else 100)).length
          (filterItemsFromTable ((st.rows.drop (lek.getD 0)).take
            (if first then 50 else 100)) attributeName).length 0 0,
        ?_, ?_, ?_, ?_⟩
      · simp only [processTableLoop, storeCollab_scan, hpage, if_neg htok]
      · simp [addStats, hfilter]
      · simp [addStats]
      · simp [addStats]

/-! ## Counting lemmas for the per-record update loop -/

theorem batchUpdateItems_ok_counts {σ : Type} (C : Collab σ)
    (tableName attributeName : String) (keyAttributes : List String)
    (items : List Item) :
    ∀ (st st1 : σ) (succ fail : Nat),
    batchUpdateItems C tableName items attributeName keyAttributes st
      = (Except.ok (succ, fail), st1) → succ + fail = items.length := by
  induction items with
  | nil =>
    intro st st1 succ fail h
    simp only [batchUpdateItems, Prod.mk.injEq, Except.ok.injEq] at h
    obtain ⟨⟨hs, hf⟩, -⟩ := h
    simp only [List.length_nil]
    omega
  | cons item rest ih =>
    intro st st1 succ fail h
    simp only [batchUpdateItems] at h
    split at h
    · exact absurd h (by simp)
    · split at h
      · exact absurd h (by simp)
      · rename_i s f st2 heq
        split at h
        · simp only [Prod.mk.injEq, Except.ok.injEq] at h
          obtain ⟨⟨hs, hf⟩, -⟩ := h
          have := ih _ _ _ _ heq
          simp only [List.length_cons]
          omega
        · simp only [Prod.mk.injEq, Except.ok.injEq] at h
          obtain ⟨⟨hs, hf⟩, -⟩ := h
          have := ih _ _ _ _ heq
          simp only [List.length_cons]
          omega

theorem pageOutcome_ok_counts {σ : Type} (C : Collab σ)
    (tableName newAttributeName : String) (keyAttributes : List String)
    (itemsToUpdate : List Item) (st st1 : σ) (succ fail : Nat)
    (h : pageOutcome C tableName itemsToUpdate newAttributeName keyAttributes st
      = (Except.ok (succ, fail), st1)) : succ + fail = itemsToUpdate.length := by
  unfold pageOutcome at h
  split at h
  · exact batchUpdateItems_ok_counts C tableName newAttributeName keyAttributes
      itemsToUpdate st st1 succ fail h
  · rename_i hlen
    simp only [Prod.mk.injEq, Except.ok.injEq] at h
    obtain ⟨⟨hs, hf⟩, -⟩ := h
    omega

theorem processTableLoop_ok_counts {σ : Type} (C : Collab σ)
    (tableName missingAttributeName newAttributeName : String)
    (keyAttributes : List String) :
    ∀ (fuel : Nat) (lek : Option Nat) (first : Bool) (stats : ProcessingStats)
      (st : σ) (stats1 : ProcessingStats) (fs : σ)
      (trace : List (ScanRequest × Except String ScanResult)),
    processTableLoop C tableName missingAttributeName newAttributeName
      keyAttributes fuel lek first stats st = ⟨RunResult.ok stats1, fs, trace⟩ →
    stats1.itemsWithoutAttribute + stats.successfulUpdates + stats.failedUpdates
      = stats1.successfulUpdates + stats1.failedUpdates
        + stats.itemsWithoutAttribute := by
  intro fuel
  induction fuel with
  | zero =>
    intro lek first stats st stats1 fs trace h
    simp only [processTableLoop] at h
    exact absurd h (by simp)
  | succ fuel ih =>
    intro lek first stats st stats1 fs trace h
    rcases hscan : scanTableBatch C tableName (if first then 50 else 100) lek st
      with ⟨rep, st1⟩
    cases rep with
    | error e =>
      simp only [processTableLoop, hscan] at h
      exact absurd h (by simp)
    | ok scanResult =>
      simp only [processTableLoop, hscan] at h
      rcases hpage : pageOutcome C tableName
          (filterItemsFromTable scanResult.items missingAttributeName)
          newAttributeName keyAttributes st1 with ⟨rep2, st2⟩
      cases rep2 with
      | error e =>
        simp only [hpage] at h
        exact absurd h (by simp)
      | ok sf =>
        rcases sf with ⟨succ, fail⟩
        simp only [hpage] at h
        have hc := pageOutcome_ok_counts C tableName newAttributeName
          keyAttributes _ _ _ _ _ hpage
        cases hk : scanResult.lastEvaluatedKey with
        | none =>
          simp only [hk, RunOutput.mk.injEq, RunResult.ok.injEq] at h
          obtain ⟨hstats, -, -⟩ := h
          subst hstats
          simp only [addStats]
          omega
        | some k =>
          simp only [hk] at h
          rcases hr : processTableLoop C tableName missingAttributeName
              newAttributeName keyAttributes fuel (some k) false
              (addStats stats scanResult.items.length
                (filterItemsFromTable scanResult.items missingAttributeName).length
                succ fail) st2 with ⟨res0, fs0, tr0⟩
          rw [hr] at h
          simp only [RunOutput.mk.injEq] at h
          obtain ⟨hres, -, -⟩ := h
          subst hres
          have hrec := ih (some k) false _ st2 stats1 fs0 tr0 hr
          simp only [addStats] at hrec
          omega

theorem processTableLoop_scanned {σ : Type} (C : Collab σ)
    (tableName missingAttributeName newAttributeName : String)
    (keyAttributes : List String) :
    ∀ (fuel : Nat) (lek : Option Nat) (first : Bool) (stats : ProcessingStats)
      (st : σ) (stats1 : ProcessingStats) (fs : σ)
      (trace : List (ScanRequest × Except String ScanResult)),
    processTableLoop C tableName missingAttributeName newAttributeName
      keyAttributes fuel lek first stats st = ⟨RunResult.ok stats1, fs, trace⟩ →
    stats1.totalScanned = stats.totalScanned + traceScanned trace := by
  intro fuel
  induction fuel with
  | zero =>
    intro lek first stats st stats1 fs trace h
    simp only [processTableLoop] at h
    exact absurd h (by simp)
  | succ fuel ih =>
    intro lek first stats st stats1 fs trace h
    rcases hscan : scanTableBatch C tableName (if first then 50 else 100) lek st
      with ⟨rep, st1⟩
    cases rep with
    | error e =>
      simp only [processTableLoop, hscan] at h
      exact absurd h (by simp)
    | ok scanResult =>
      simp only [processTableLoop, hscan] at h
      rcases hpage : pageOutcome C tableName
          (filterItemsFromTable scanResult.items missingAttributeName)
          newAttributeName keyAttributes st1 with ⟨rep2, st2⟩
      cases rep2 with
      | error e =>
        simp only [hpage] at h
        exact absurd h (by simp)
      | ok sf =>
        rcases sf with ⟨succ, fail⟩
        simp only [hpage] at h
        cases hk : scanResult.lastEvaluatedKey with
        | none =>
          simp only [hk, RunOutput.mk.injEq, RunResult.ok.injEq] at h
          obtain ⟨hstats, -, htr⟩ := h
          subst hstats
          subst htr
          simp only [addStats, traceScanned]
          omega
        | some k =>
          simp only [hk] at h
          rcases hr : processTableLoop C tableName missingAttributeName
              newAttributeName keyAttributes fuel (some k) false
              (addStats stats scanResult.items.length
                (filterItemsFromTable scanResult.items missingAttributeName).length
                succ fail) st2 with ⟨res0, fs0, tr0⟩
          rw [hr] at h
          simp only [RunOutput.mk.injEq] at h
          obtain ⟨hres, -, htr⟩ := h
          subst hres
          subst htr
          have hrec := ih (some k) false _ st2 stats1 fs0 tr0 hr
          simp only [addStats] at hrec
          simp only [traceScanned]
          omega

theorem processTableLoop_trace_head {σ : Type} (C : Collab σ)
    (tableName missingAttributeName newAttributeName : String)
    (keyAttributes : List String) (fuel : Nat) (lek : Option Nat) (first : Bool)
    (stats : ProcessingStats) (st : σ) (res : RunResult) (fs : σ)
    (trace : List (ScanRequest × Except String ScanResult))
    (h : processTableLoop C tableName missingAttributeName newAttributeName
      keyAttributes (fuel + 1) lek first stats st = ⟨res, fs, trace⟩) :
    (trace.map Prod.fst).head?
      = some ⟨tableName, (if first then 50 else 100), lek⟩ := by
  rcases hscan : scanTableBatch C tableName (if first then 50 else 100) lek st
    with ⟨rep, st1⟩
  cases rep with
  | error e =>
    simp only [processTableLoop, hscan] at h
    simp only [RunOutput.mk.injEq] at h
    obtain ⟨-, -, htr⟩ := h
    subst htr
    simp
  | ok scanResult =>
    simp only [processTableLoop, hscan] at h
    rcases hpage : pageOutcome C tableName
        (filterItemsFromTable scanResult.items missingAttributeName)
        newAttributeName keyAttributes st1 with ⟨rep2, st2⟩
    cases rep2 with
    | error e =>
      simp only [hpage] at h
      simp only [RunOutput.mk.injEq] at h
      obtain ⟨-, -, htr⟩ := h
      subst htr
      simp
    | ok sf =>
      rcases sf with ⟨succ, fail⟩
      simp only [hpage] at h
      cases hk : scanResult.lastEvaluatedKey with
      | none =>
        simp only [hk, RunOutput.mk.injEq] at h
        obtain ⟨-, -, htr⟩ := h
        subst htr
        simp
      | some k =>
        simp only [hk, RunOutput.mk.injEq] at h
        obtain ⟨-, -, htr⟩ := h
        subst htr
        simp

theorem processTableLoop_chain {σ : Type} (C : Collab σ)
    (tableName missingAttributeName newAttributeName : String)
    (keyAttributes : List String) :
    ∀ (fuel : Nat) (lek : Option Nat) (first : Bool) (stats : ProcessingStats)
      (st : σ) (res : RunResult) (fs : σ)
      (trace : List (ScanRequest × Except String ScanResult)),
    processTableLoop C tableName missingAttributeName newAttributeName
      keyAttributes fuel lek first stats st = ⟨res, fs, trace⟩ →
    scanChain trace = true := by
  intro fuel
  induction fuel with
  | zero =>
    intro lek first stats st res fs trace h
    simp only [processTableLoop, RunOutput.mk.injEq] at h
    obtain ⟨-, -, htr⟩ := h
    subst htr
    rfl
  | succ fuel ih =>
    intro lek first stats st res fs trace h
    rcases hscan : scanTableBatch C tableName (if first then 50 else 100) lek st
      with ⟨rep, st1⟩
    cases rep with
    | error e =>
      simp only [processTableLoop, hscan, RunOutput.mk.injEq] at h
      obtain ⟨-, -, htr⟩ := h
      subst htr
      rfl
    | ok scanResult =>
      simp only [processTableLoop, hscan] at h
      rcases hpage : pageOutcome C tableName
          (filterItemsFromTable scanResult.items missingAttributeName)
          newAttributeName keyAttributes st1 with ⟨rep2, st2⟩
      cases rep2 with
      | error e =>
        simp only [hpage, RunOutput.mk.injEq] at h
        obtain ⟨-, -, htr⟩ := h
        subst htr
        rfl
      | ok sf =>
        rcases sf with ⟨succ, fail⟩
        simp only [hpage] at h
        cases hk : scanResult.lastEvaluatedKey with
        | none =>
          simp only [hk, RunOutput.mk.injEq] at h
          obtain ⟨-, -, htr⟩ := h
          subst htr
          rfl
        | some k =>
          simp only [hk] at h
          rcases hr : processTableLoop C tableName missingAttributeName
              newAttributeName keyAttributes fuel (some k) false
              (addStats stats scanResult.items.length
                (filterItemsFromTable scanResult.items missingAttributeName).length
                succ fail) st2 with ⟨res0, fs0, tr0⟩
          rw [hr] at h
          simp only [RunOutput.mk.injEq] at h
          obtain ⟨-, -, htr⟩ := h
          subst htr
          have hch := ih (some k) false _ st2 res0 fs0 tr0 hr
          cases tr0 with
          | nil => rfl
          | cons e2 rest2 =>
            cases fuel with
            | zero =>
              simp only [processTableLoop, RunOutput.mk.injEq] at hr
              obtain ⟨-, -, htr0⟩ := hr
              exact absurd htr0 (by simp)
            | succ fuel2 =>
              have hhead := processTableLoop_trace_head C tableName
                missingAttributeName newAttributeName keyAttributes fuel2
                (some k) false _ st2 res0 fs0 (e2 :: rest2) hr
              rcases e2 with ⟨req2, rep2⟩
              simp only [List.map_cons, List.head?_cons, Option.some.injEq] at hhead
              subst hhead
              simp only [scanChain, hk]
              simpa using hch

/-! ## Claim theorems: run counters, paging discipline, scan failures -/

/-- Claim C4: a completed `processTable` run returns counters with
`itemsWithoutAttribute = successfulUpdates + failedUpdates`: every selected
record produces exactly one counted update outcome. -/
theorem claimC4 (σ : Type) (C : Collab σ) (st : σ) (fuel : Nat)
    (tableName missingAttributeName newAttributeName : String)
    (keyAttributes : List String) (stats1 : ProcessingStats)
    (h : (processTable C fuel st tableName missingAttributeName
      newAttributeName keyAttributes).result = RunResult.ok stats1) :
    stats1.itemsWithoutAttribute
      = stats1.successfulUpdates + stats1.failedUpdates := by
  have heq : processTable C fuel st tableName missingAttributeName
      newAttributeName keyAttributes
      = ⟨RunResult.ok stats1,
         (processTable C fuel st tableName missingAttributeName
           newAttributeName keyAttributes).finalState,
         (processTable C fuel st tableName missingAttributeName
           newAttributeName keyAttributes).scanTrace⟩ := by
    rw [← h]
  have hmain := processTableLoop_ok_counts C tableName missingAttributeName
    newAttributeName keyAttributes fuel none true ⟨0, 0, 0, 0⟩ st stats1 _ _ heq
  simpa using hmain

/-- Witness for claim C4: a one-row store whose run returns
`⟨1, 1, 1, 0⟩`. -/
theorem claimC4_witness :
    (processTable storeCollab 1 ⟨demoRows⟩ "T" "AccountId" "AccountId"
      ["id"]).result = RunResult.ok ⟨1, 1, 1, 0⟩
    ∧ (1 : Nat) = 1 + 0 :=
  ⟨by decide,
   claimC4 TableStore storeCollab ⟨demoRows⟩ 1 "T" "AccountId" "AccountId"
     ["id"] ⟨1, 1, 1, 0⟩ (by decide)⟩

/-- Claim C9: a completed `processTable` run returns
`totalScanned` equal to the sum over all scan calls of the number of items
the store actually returned on that page. -/
theorem claimC9 (σ : Type) (C : Collab σ) (st : σ) (fuel : Nat)
    (tableName missingAttributeName newAttributeName : String)
    (keyAttributes : List String) (stats1 : ProcessingStats)
    (h : (processTable C fuel st tableName missingAttributeName
      newAttributeName keyAttributes).result = RunResult.ok stats1) :
    stats1.totalScanned
      = traceScanned (processTable C fuel st tableName missingAttributeName
          newAttributeName keyAttributes).scanTrace := by
  have heq : processTable C fuel st tableName missingAttributeName
      newAttributeName keyAttributes
      = ⟨RunResult.ok stats1,
         (processTable C fuel st tableName missingAttributeName
           newAttributeName keyAttributes).finalState,
         (processTable C fuel st tableName missingAttributeName
           newAttributeName keyAttributes).scanTrace⟩ := by
    rw [← h]
  have hmain := processTableLoop_scanned C tableName missingAttributeName
    newAttributeName keyAttributes fuel none true ⟨0, 0, 0, 0⟩ st stats1 _ _ heq
  simpa using hmain

/-- Witness for claim C9: the one-row demonstration run scans one item in one
page. -/
theorem claimC9_witness :
    (processTable storeCollab 1 ⟨demoRows⟩ "T" "AccountId" "AccountId"
      ["id"]).result = RunResult.ok ⟨1, 1, 1, 0⟩
    ∧ (1 : Nat) = traceScanned (processTable storeCollab 1 ⟨demoRows⟩ "T"
        "AccountId" "AccountId" ["id"]).scanTrace :=
  ⟨by decide,
   claimC9 TableStore storeCollab ⟨demoRows⟩ 1 "T" "AccountId" "AccountId"
     ["id"] ⟨1, 1, 1, 0⟩ (by decide)⟩

/-- Claim C5: in every run the first scan call passes no continuation token
and limit 50, and each subsequent scan call passes limit 100 together with
exactly the token returned by the immediately preceding call. -/
theorem claimC5 (σ : Type) (C : Collab σ) (st : σ) (fuel : Nat)
    (tableName missingAttributeName newAttributeName : String)
    (keyAttributes : List String) (hfuel : 0 < fuel) :
    ((processTable C fuel st tableName missingAttributeName newAttributeName
        keyAttributes).scanTrace.map Prod.fst).head?
      = some ⟨tableName, 50, none⟩
    ∧ scanChain (processTable C fuel st tableName missingAttributeName
        newAttributeName keyAttributes).scanTrace = true := by
  cases fuel with
  | zero => omega
  | succ fuel =>
    constructor
    · have := processTableLoop_trace_head C tableName missingAttributeName
        newAttributeName keyAttributes fuel none true ⟨0, 0, 0, 0⟩ st _ _ _ rfl
      simpa using this
    · exact processTableLoop_chain C tableName missingAttributeName
        newAttributeName keyAttributes (fuel + 1) none true ⟨0, 0, 0, 0⟩ st
        _ _ _ rfl

/-- Witness for claim C5: the demonstration run's only call is
`⟨"T", 50, none⟩` and its trace satisfies the chain discipline. -/
theorem claimC5_witness :
    (0 : Nat) < 1
    ∧ ((processTable storeCollab 1 ⟨demoRows⟩ "T" "AccountId" "AccountId"
        ["id"]).scanTrace.map Prod.fst).head? = some ⟨"T", 50, none⟩
    ∧ scanChain (processTable storeCollab 1 ⟨demoRows⟩ "T" "AccountId"
        "AccountId" ["id"]).scanTrace = true :=
  ⟨by decide,
   claimC5 TableStore storeCollab ⟨demoRows⟩ 1 "T" "AccountId" "AccountId"
     ["id"] (by decide)⟩

/-- Claim C7: when the store rejects a scan call, `scanTableBatch` rethrows
exactly that error, and the `processTable` iteration converts it into an
uncaught termination of the run: the result is `thrown` with the same error,
no stats are returned, and no further scan call is made. -/
theorem claimC7 (σ : Type) (C : Collab σ) (st st1 : σ)
    (tableName missingAttributeName newAttributeName : String)
    (keyAttributes : List String) (fuel : Nat) (lek : Option Nat)
    (first : Bool) (stats : ProcessingStats) (e : String)
    (h : C.scanSend ⟨tableName, (if first then 50 else 100), lek⟩ st
      = (Except.error e, st1)) :
    scanTableBatch C tableName (if first then 50 else 100) lek st
      = (Except.error e, st1)
    ∧ processTableLoop C tableName missingAttributeName newAttributeName
        keyAttributes (fuel + 1) lek first stats st
      = ⟨RunResult.thrown e, st1,
         [(⟨tableName, (if first then 50 else 100), lek⟩, Except.error e)]⟩ := by
  have hb : scanTableBatch C tableName (if first then 50 else 100) lek st
      = (Except.error e, st1) := by
    unfold scanTableBatch
    rw [h]
  exact ⟨hb, by simp only [processTableLoop, hb]⟩

/-- Witness for claim C7: a collaborator whose scans always fail makes the
run throw immediately after one call. -/
theorem claimC7_witness :
    failScanCollab.scanSend ⟨"T", 50, none⟩ ()
      = (Except.error "scan transport failure", ())
    ∧ scanTableBatch failScanCollab "T" 50 none ()
        = (Except.error "scan transport failure", ())
    ∧ processTableLoop failScanCollab "T" "A" "A" ["id"] 1 none true
        ⟨0, 0, 0, 0⟩ ()
      = ⟨RunResult.thrown "scan transport failure", (),
         [(⟨"T", 50, none⟩, Except.error "scan transport failure")]⟩ :=
  ⟨by decide,
   claimC7 Unit failScanCollab () () "T" "A" "A" ["id"] 0 none true
     ⟨0, 0, 0, 0⟩ "scan transport failure" (by decide)⟩

theorem addStats_zero (stats : ProcessingStats) :
    addStats stats 0 0 0 0 = stats := by
  cases stats
  simp [addStats]

theorem emptyPages_loop (n : Nat)
    (tableName missingAttributeName newAttributeName : String)
    (keyAttributes : List String) :
    ∀ (k fuel : Nat) (stats : ProcessingStats), 0 < k → k ≤ fuel →
    ∃ trace,
      processTableLoop (emptyPagesCollab n) tableName missingAttributeName
        newAttributeName keyAttributes fuel (some k) false stats ()
        = ⟨RunResult.ok stats, (), trace⟩ ∧ trace.length = k := by
  intro k
  induction k with
  | zero => intro fuel stats h1 h2; omega
  | succ k ih =>
    intro fuel stats hpos hle
    cases fuel with
    | zero => omega
    | succ fuel =>
      by_cases hk : 0 < k
      · have h1 : 1 < k + 1 := by omega
        have hscan : scanTableBatch (emptyPagesCollab n) tableName 100
            (some (k + 1)) () = (Except.ok ⟨[], some k, true⟩, ()) := by
          simp [scanTableBatch, emptyPagesCollab, h1]
        obtain ⟨tr, heq, hlen⟩ := ih fuel stats hk (by omega)
        refine ⟨(⟨tableName, 100, some (k + 1)⟩,
            Except.ok ⟨[], some k, true⟩) :: tr, ?_, by simp [hlen]⟩
        simp only [processTableLoop]
        simp [hscan, heq, pageOutcome, filterItemsFromTable, addStats_zero]
      · have hk0 : k = 0 := by omega
        subst hk0
        have hscan : scanTableBatch (emptyPagesCollab n) tableName 100
            (some 1) () = (Except.ok ⟨[], none, false⟩, ()) := by
          simp [scanTableBatch, emptyPagesCollab]
        refine ⟨[(⟨tableName, 100, some 1⟩,
            Except.ok ⟨[], none, false⟩)], ?_, rfl⟩
        simp only [processTableLoop]
        simp [hscan, pageOutcome, filterItemsFromTable, addStats_zero]

theorem emptyPages_run (n : Nat)
    (tableName missingAttributeName newAttributeName : String)
    (keyAttributes : List String) :
    ∃ trace,
      processTable (emptyPagesCollab n) (n + 1) () tableName
        missingAttributeName newAttributeName keyAttributes
        = ⟨RunResult.ok ⟨0, 0, 0, 0⟩, (), trace⟩ ∧ trace.length = n + 1 := by
  cases n with
  | zero =>
    refine ⟨[(⟨tableName, 50, none⟩, Except.ok ⟨[], none, false⟩)], ?_, rfl⟩
    have hscan : scanTableBatch (emptyPagesCollab 0) tableName 50 none ()
        = (Except.ok ⟨[], none, false⟩, ()) := by
      simp [scanTableBatch, emptyPagesCollab]
    simp only [processTable, processTableLoop]
    simp [hscan, pageOutcome, filterItemsFromTable, addStats_zero]
  | succ n =>
    obtain ⟨tr, heq, hlen⟩ := emptyPages_loop (n + 1) tableName
      missingAttributeName newAttributeName keyAttributes (n + 1) (n + 1)
      ⟨0, 0, 0, 0⟩ (by omega) (by omega)
    refine ⟨(⟨tableName, 50, none⟩, Except.ok ⟨[], some (n + 1), true⟩) :: tr,
      ?_, by simp [hlen]⟩
    have hscan : scanTableBatch (emptyPagesCollab (n + 1)) tableName 50 none ()
        = (Except.ok ⟨[], some (n + 1), true⟩, ()) := by
      simp [scanTableBatch, emptyPagesCollab]
    simp only [processTable]
    rw [processTableLoop]
    simp [hscan, heq, pageOutcome, filterItemsFromTable, addStats_zero]

/-- Claim C6: the scan result's `hasMoreItems` flag is true exactly when the
store returned a continuation token, and the driving loop keeps scanning on
token presence alone: against a store returning `n` empty tokened pages and
one final empty page, the run makes exactly `n + 1` scan calls and completes
normally — the zero item counts never terminate it. -/
theorem claimC6 (σ : Type) (C : Collab σ) (st st1 : σ) (tableName : String)
    (limit : Nat) (lek : Option Nat) (r : ScanResult) (n : Nat)
    (tableName2 missingAttributeName newAttributeName : String)
    (keyAttributes : List String)
    (h : scanTableBatch C tableName limit lek st = (Except.ok r, st1)) :
    r.hasMoreItems = r.lastEvaluatedKey.isSome
    ∧ (processTable (emptyPagesCollab n) (n + 1) () tableName2
        missingAttributeName newAttributeName keyAttributes).result
        = RunResult.ok ⟨0, 0, 0, 0⟩
    ∧ (processTable (emptyPagesCollab n) (n + 1) () tableName2
        missingAttributeName newAttributeName keyAttributes).scanTrace.length
        = n + 1 := by
  obtain ⟨tr, heq, hlen⟩ := emptyPages_run n tableName2 missingAttributeName
    newAttributeName keyAttributes
  refine ⟨?_, by rw [heq], by rw [heq]; exact hlen⟩
  unfold scanTableBatch at h
  rcases hsend : C.scanSend ⟨tableName, limit, lek⟩ st with ⟨rep, stx⟩
  rw [hsend] at h
  cases rep with
  | error e => exact absurd h (by simp)
  | ok resp =>
    simp only [Prod.mk.injEq, Except.ok.injEq] at h
    obtain ⟨hr, -⟩ := h
    subst hr
    rfl

/-- Witness for claim C6: the demonstration store's single scan has no token
and `hasMoreItems = false`; the two-token empty-page store is driven for
exactly three calls. -/
theorem claimC6_witness :
    scanTableBatch storeCollab "T" 50 none ⟨demoRows⟩
      = (Except.ok ⟨demoRows, none, false⟩, ⟨demoRows⟩)
    ∧ ((⟨demoRows, none, false⟩ : ScanResult).hasMoreItems
        = (⟨demoRows, none, false⟩ : ScanResult).lastEvaluatedKey.isSome
      ∧ (processTable (emptyPagesCollab 2) 3 () "T" "A" "A" ["id"]).result
          = RunResult.ok ⟨0, 0, 0, 0⟩
      ∧ (processTable (emptyPagesCollab 2) 3 () "T" "A" "A"
          ["id"]).scanTrace.length = 3) :=
  ⟨by decide,
   claimC6 TableStore storeCollab ⟨demoRows⟩ ⟨demoRows⟩ "T" 50 none
     ⟨demoRows, none, false⟩ 2 "T" "A" "A" ["id"] (by decide)⟩

/-! ## Claim theorems: derivation, filter, default key attributes -/

/-- Claim C2: `getAccountIdFromArn` succeeds exactly when the input is a
non-empty string splitting on `:` into at least 6 segments whose segment 4 is
non-empty and exactly 12 ASCII decimal digits, and then it returns segment 4
unchanged; in every other case it fails. -/
theorem claimC2 (v : Option DVal) (a : String) :
    getAccountIdFromArn v = Except.ok a ↔
      ∃ s, v = some (DVal.str s) ∧ ¬s = "" ∧ 6 ≤ (jsSplit s ':').length ∧
        ¬(jsSplit s ':').getD 4 "" = "" ∧
        matchesTwelveDigits ((jsSplit s ':').getD 4 "") = true ∧
        a = (jsSplit s ':').getD 4 "" := by
  cases v with
  | none => simp [getAccountIdFromArn]
  | some d =>
    cases d with
    | str s =>
      constructor
      · intro h
        simp only [getAccountIdFromArn] at h
        split_ifs at h with h1 h2 h3 h4
        refine ⟨s, rfl, h1, by omega, h3, ?_, (Except.ok.inj h).symm⟩
        cases hmb : matchesTwelveDigits ((jsSplit s ':').getD 4 "") with
        | false => rw [hmb] at h4; simp at h4
        | true => rfl
      · rintro ⟨s1, hs1, hne, hlen, hseg, hm, ha⟩
        simp only [Option.some.injEq, DVal.str.injEq] at hs1
        subst hs1
        simp only [getAccountIdFromArn]
        rw [if_neg hne, if_neg (by omega), if_neg hseg, if_neg (by rw [hm]; decide), ha]
    | num n => simp [getAccountIdFromArn]
    | bool b => simp [getAccountIdFromArn]
    | null => simp [getAccountIdFromArn]

/-- Claim C3: `filterItemsFromTable` keeps exactly the records in which the
attribute name is not a present key (presence with `null`, `""` or `0` still
excludes), as an order-preserving sublist, without touching its inputs;
illustrated on the spec's concrete records. -/
theorem claimC3 (items : List Item) (attributeName : String) :
    List.Sublist (filterItemsFromTable items attributeName) items
    ∧ (∀ item : Item, item ∈ filterItemsFromTable items attributeName ↔
        item ∈ items ∧ hasAttr item attributeName = false)
    ∧ (∀ item : Item, hasAttr item attributeName = true ↔
        ∃ v, (attributeName, v) ∈ item)
    ∧ filterItemsFromTable
        [[("id", DVal.str "a"), ("Attr", DVal.null)], [("id", DVal.str "b")]]
        "Attr" = [[("id", DVal.str "b")]]
    ∧ filterItemsFromTable
        [[("id", DVal.str "a"), ("Attr", DVal.str "")],
         [("id", DVal.str "c"), ("Attr", DVal.num 0)]] "Attr" = [] := by
  refine ⟨List.filter_sublist _, ?_, fun item => hasAttr_true_iff item _,
    by decide, by decide⟩
  intro item
  rw [filterItemsFromTable, List.mem_filter, Bool.not_eq_true']

/-- Claim C10: calling `processTable` without `keyAttributes` is the same run
as passing `["id"]`, and the key then built for every update consists of the
single attribute `id` copied from the item (absent only when the item lacks
`id`). -/
theorem claimC10 (σ : Type) (C : Collab σ) (fuel : Nat) (st : σ)
    (tableName missingAttributeName newAttributeName : String) :
    processTable C fuel st tableName missingAttributeName newAttributeName
      = processTable C fuel st tableName missingAttributeName newAttributeName ["id"]
    ∧ (∀ item : Item, buildKey item ["id"] =
        match getAttr item "id" with
        | some v => [("id", v)]
        | none => [])
    ∧ buildKey [("id", DVal.str "a"), ("x", DVal.num 1)] ["id"]
        = [("id", DVal.str "a")]
    ∧ buildKey [("x", DVal.num 1)] ["id"] = [] := by
  refine ⟨rfl, ?_, by decide, by decide⟩
  intro item
  unfold buildKey
  cases h : getAttr item "id" <;> simp [h]

/-- Claim C1, counterexample: a page of two selected records where the first
has a malformed `AgentArn` and the second a valid one, against a store whose
updates all succeed.  The claim predicts the derivation failure is caught and
counted (`Except.ok (1, 1)`); the code instead lets it escape the per-record
loop, abandoning the second record. -/
theorem claimC1_counterexample :
    (batchUpdateItems unitCollab "T"
      [[("id", DVal.str "r1"), ("AgentArn", DVal.str "not-an-arn")],
       [("id", DVal.str "r2"),
        ("AgentArn", DVal.str "arn:aws:genesis:us-west-2:886436930021:agent/x")]]
      "AccountId" ["id"] ()).1
    = Except.error "Invalid ARN format: not-an-arn. Expected format: arn:partition:service:region:account-id:resource" := by
  decide

/-- Claim C1 (amended): for a selected record whose owner-id derivation
succeeds, a failure of the update call is caught inside `updateItem` and
converted into a failed `UpdateResult` carrying the error message, and
`batchUpdateItems` counts it exactly in the failed counter — the batch
returns normally with `(s, f + 1)` where `(s, f)` are the counters produced
by processing the remaining records, so the failure neither propagates nor
touches the success counter.  A derivation failure, by contrast, escapes the
loop (see the counterexample). -/
theorem claimC1_amended (σ : Type) (C : Collab σ) (st st1 st2 : σ)
    (tableName attributeName : String) (keyAttributes : List String)
    (item : Item) (rest : List Item) (acct e : String) (s f : Nat)
    (hder : getAccountIdFromArn (getAttr item "AgentArn") = Except.ok acct)
    (hfail : C.updSend ⟨tableName, buildKey item keyAttributes, attributeName,
        acct⟩ st = (Except.error e, st1))
    (hrest : batchUpdateItems C tableName rest attributeName keyAttributes st1
      = (Except.ok (s, f), st2)) :
    updateItem C tableName item attributeName acct keyAttributes st
      = (⟨false, none, some e⟩, st1)
    ∧ batchUpdateItems C tableName (item :: rest) attributeName keyAttributes
        st = (Except.ok (s, f + 1), st2) := by
  have h1 : updateItem C tableName item attributeName acct keyAttributes st
      = (⟨false, none, some e⟩, st1) := by
    unfold updateItem
    rw [hfail]
  refine ⟨h1, ?_⟩
  simp only [batchUpdateItems, hder, h1, hrest]
  simp

/-- Witness for the amended claim C1: one record with a valid ARN against a
store rejecting every update — the failure is caught and lands in the
failed counter, with the success counter left at zero. -/
theorem claimC1_amended_witness :
    getAccountIdFromArn (getAttr
      [("id", DVal.str "a"),
       ("AgentArn", DVal.str "arn:aws:genesis:us-west-2:886436930021:agent/x")]
      "AgentArn") = Except.ok "886436930021"
    ∧ failUpdateCollab.updSend ⟨"T",
        buildKey [("id", DVal.str "a"),
          ("AgentArn",
           DVal.str "arn:aws:genesis:us-west-2:886436930021:agent/x")] ["id"],
        "AccountId", "886436930021"⟩ ()
      = (Except.error "transport failure", ())
    ∧ batchUpdateItems failUpdateCollab "T" [] "AccountId" ["id"] ()
      = (Except.ok (0, 0), ())
    ∧ (updateItem failUpdateCollab "T"
        [("id", DVal.str "a"),
         ("AgentArn",
          DVal.str "arn:aws:genesis:us-west-2:886436930021:agent/x")]
        "AccountId" "886436930021" ["id"] ()
        = (⟨false, none, some "transport failure"⟩, ())
      ∧ batchUpdateItems failUpdateCollab "T"
          [[("id", DVal.str "a"),
            ("AgentArn",
             DVal.str "arn:aws:genesis:us-west-2:886436930021:agent/x")]]
          "AccountId" ["id"] () = (Except.ok (0, 1), ())) :=
  ⟨by decide, by decide, by decide,
   claimC1_amended Unit failUpdateCollab () () () "T" "AccountId" ["id"]
     [("id", DVal.str "a"),
      ("AgentArn", DVal.str "arn:aws:genesis:us-west-2:886436930021:agent/x")]
     [] "886436930021" "transport failure" 0 0
     (by decide) (by decide) (by decide)⟩

/-- Claim C8: after a completed run of the pipeline over the modelled store
(one attribute checked and written; the modelled store never fails an
update), a second run over the resulting store selects nothing and updates
nothing: the first run's successful updates made the attribute present on
every previously-selected record. -/
theorem claimC8 (rows : List Item) (fuel1 : Nat)
    (tableName attributeName : String) (keyAttributes : List String)
    (stats1 : ProcessingStats)
    (h : (processTable storeCollab fuel1 ⟨rows⟩ tableName attributeName
      attributeName keyAttributes).result = RunResult.ok stats1) :
    ∃ stats2 : ProcessingStats,
      (processTable storeCollab
        ((processTable storeCollab fuel1 ⟨rows⟩ tableName attributeName
          attributeName keyAttributes).finalState.rows.length + 1)
        (processTable storeCollab fuel1 ⟨rows⟩ tableName attributeName
          attributeName keyAttributes).finalState
        tableName attributeName attributeName keyAttributes).result
        = RunResult.ok stats2
      ∧ stats2.itemsWithoutAttribute = 0
      ∧ stats2.successfulUpdates = 0
      ∧ stats2.failedUpdates = 0 := by
  have heq : processTable storeCollab fuel1 ⟨rows⟩ tableName attributeName
      attributeName keyAttributes
      = ⟨RunResult.ok stats1,
         (processTable storeCollab fuel1 ⟨rows⟩ tableName attributeName
           attributeName keyAttributes).finalState,
         (processTable storeCollab fuel1 ⟨rows⟩ tableName attributeName
           attributeName keyAttributes).scanTrace⟩ := by
    rw [← h]
  have hpost := processTableLoop_store_post tableName attributeName
    keyAttributes fuel1 none true ⟨0, 0, 0, 0⟩ ⟨rows⟩ stats1 _ _ heq
    (fun p hp hlt => absurd hlt (by simp))
  obtain ⟨stats2, hres, hm, hs, hf⟩ := processTableLoop_clean tableName
    attributeName keyAttributes
    ((processTable storeCollab fuel1 ⟨rows⟩ tableName attributeName
      attributeName keyAttributes).finalState.rows.length + 1) none true
    ⟨0, 0, 0, 0⟩
    (processTable storeCollab fuel1 ⟨rows⟩ tableName attributeName
      attributeName keyAttributes).finalState
    hpost (by simp only [Option.getD_none]; omega)
  exact ⟨stats2, hres, hm, hs, hf⟩

/-- Witness for claim C8: the one-row demonstration store; the first run
updates the row, the second selects and updates nothing. -/
theorem claimC8_witness :
    (processTable storeCollab 1 ⟨demoRows⟩ "T" "AccountId" "AccountId"
      ["id"]).result = RunResult.ok ⟨1, 1, 1, 0⟩
    ∧ ∃ stats2 : ProcessingStats,
        (processTable storeCollab
          ((processTable storeCollab 1 ⟨demoRows⟩ "T" "AccountId" "AccountId"
            ["id"]).finalState.rows.length + 1)
          (processTable storeCollab 1 ⟨demoRows⟩ "T" "AccountId" "AccountId"
            ["id"]).finalState
          "T" "AccountId" "AccountId" ["id"]).result = RunResult.ok stats2
        ∧ stats2.itemsWithoutAttribute = 0
        ∧ stats2.successfulUpdates = 0
        ∧ stats2.failedUpdates = 0 :=
  ⟨by decide,
   claimC8 demoRows 1 "T" "AccountId" ["id"] ⟨1, 1, 1, 0⟩ (by decide)⟩

end Dyn
